import Mathlib

/-!
Shallow embedding of the account data layer of the cinema-online API
(src/database/models/accounts.py and src/schemas/accounts.py), together
with proofs of the specification claims about it.

Python strings are Lean `String`s; instants (`datetime`) are `Int` seconds
since an arbitrary epoch, so `timedelta(days = d)` is `d * 86400` seconds;
raising an exception is returning `Except.error`; SQLAlchemy rows are
structures and the tables of the store are lists of rows.
-/

namespace CinemaAccounts

/-- Errors of the model layer: `validationError` stands for the
ValidationError raised by the validators (weak password, malformed email),
`attributeError` for the AttributeError raised by the write-only password
property, `integrityError` for a database uniqueness- or foreign-key
violation on insert. -/
inductive ModelError where
  | validationError
  | attributeError
  | integrityError
deriving DecidableEq, Repr

/-- Modelled from the spec: Python's `str.lower()` (ASCII case folding,
character by character), used by `User.validate_email` and the schema
email field validator. -/
def pyLower (s : String) : String :=
  String.mk (s.data.map Char.toLower)

/-- Modelled from the spec: the Password Strength Validator policy of
src/database/validators/accounts.py (absent from src/): a minimum length
and character-class diversity check. Exact thresholds are a configuration
concern per the spec; the model fixes length at least 8, at least one
letter and at least one digit. -/
def passwordIsStrong (raw : String) : Bool :=
  decide (8 ≤ raw.data.length) && raw.data.any Char.isAlpha && raw.data.any Char.isDigit

/-- Modelled from the spec: `validators.validate_password_strength` from
src/database/validators/accounts.py (absent from src/). Accepts or
rejects a raw password against the policy; returns the raw password
unchanged on success, raises ValidationError otherwise ("reject weak
passwords before they reach the hasher"). -/
def validate_password_strength (raw : String) : Except ModelError String :=
  if passwordIsStrong raw then Except.ok raw else Except.error ModelError.validationError

/-- Splits a character list at its first `@`, returning the local part and
the domain part, or `none` when no `@` occurs. -/
def splitAtSign : List Char → Option (List Char × List Char)
  | [] => none
  | c :: cs =>
    if c = '@' then some ([], cs)
    else
      match splitAtSign cs with
      | some (l, r) => some (c :: l, r)
      | none => none

/-- Syntax acceptance on the two chunks around the first `@`: nonempty
local part, nonempty domain containing a dot and no further `@`. -/
def emailChunksOk (p : List Char × List Char) : Bool :=
  !p.1.isEmpty && !p.2.isEmpty && p.2.any (fun c => c == '.') && !(p.2.any (fun c => c == '@'))

/-- Modelled from the spec: the valid-email-syntax check of
`validators.validate_email` from src/database/validators/accounts.py
(absent from src/), also standing in for pydantic's `EmailStr` syntax
validation: exactly the strings with a nonempty local part, one `@`, and
a nonempty domain containing a dot are accepted. -/
def emailSyntaxOk (s : String) : Bool :=
  match splitAtSign s.data with
  | some p => emailChunksOk p
  | none => false

/-- Modelled from the spec: `validators.validate_email` from
src/database/validators/accounts.py (absent from src/): checks the
valid-email-syntax invariant, returning the value unchanged on success
and raising ValidationError otherwise. -/
def validate_email (value : String) : Except ModelError String :=
  if emailSyntaxOk value then Except.ok value else Except.error ModelError.validationError

/-- Modelled from the spec: a digest of the Credential Hasher
(src/security/passwords.py, absent from src/): a per-call salt embedded
in the digest encoding plus the information needed to verify a raw
password against it. The model idealises the hash as collision-free. -/
structure Digest where
  salt : Nat
  hashed_of : String
deriving DecidableEq, Repr

/-- Modelled from the spec: `hash_password` of src/security/passwords.py
(absent from src/): salted one-way hash; the salt is chosen per call by
the caller's random source and embedded in the digest. -/
def hash_password (salt : Nat) (raw : String) : Digest :=
  { salt := salt, hashed_of := raw }

/-- Modelled from the spec: `verify_password` of src/security/passwords.py
(absent from src/): true exactly when the raw password is the one the
digest was derived from, for any salt. -/
def verify_password (raw : String) (digest : Digest) : Bool :=
  digest.hashed_of == raw

/-- Events observable on a password-setting path: a run of the Password
Strength Validator on a raw password, or a run of the Credential Hasher
on a raw password. Traces of these events record the order in which the
two collaborators are invoked. -/
inductive PwEvent where
  | validate (raw : String)
  | hash (raw : String)
deriving DecidableEq, Repr

/-- The strength validator as a traced step: its result paired with the
event it emits. -/
def runValidatePassword (raw : String) : Except ModelError String × List PwEvent :=
  (validate_password_strength raw, [PwEvent.validate raw])

/-- The hasher as a traced step: its digest paired with the event it
emits. -/
def runHashPassword (salt : Nat) (raw : String) : Digest × List PwEvent :=
  (hash_password salt raw, [PwEvent.hash raw])

/-- The `users` table row (src/database/models/accounts.py, class User):
email, the `hashed_password` column (None until first assignment, as in
the ORM before the setter has run), the `is_active` flag whose column
default is False, and the group foreign key. -/
structure User where
  email : String
  hashed_password : Option Digest
  is_active : Bool
  group_id : Nat
deriving DecidableEq, Repr

/-- The `User.password` property getter: raises AttributeError
unconditionally (the password is write-only). -/
def User.password (_u : User) : Except ModelError Digest :=
  Except.error ModelError.attributeError

/-- The `User.password` property setter: runs
`validators.validate_password_strength(raw_password)` and then assigns
`hash_password(raw_password)` to the hashed_password column. Returns the
updated user (or the raised error) together with the trace of
validator/hasher events in the order the source executes them. -/
def User.set_password (salt : Nat) (u : User) (raw_password : String) :
    Except ModelError User × List PwEvent :=
  let v := runValidatePassword raw_password
  match v.1 with
  | Except.error e => (Except.error e, v.2)
  | Except.ok _ =>
    let h := runHashPassword salt raw_password
    (Except.ok { u with hashed_password := some h.1 }, v.2 ++ h.2)

/-- The `@validates("email")` hook of User: lowercases the value and runs
`validators.validate_email` on the result; the returned value is what the
ORM stores. -/
def User.validate_email_hook (value : String) : Except ModelError String :=
  validate_email (pyLower value)

/-- Assignment to `User.email`: the ORM fires `validate_email` on
assignment, so the stored value is the hook's result. -/
def User.set_email (u : User) (value : String) : Except ModelError User :=
  match User.validate_email_hook value with
  | Except.ok e => Except.ok { u with email := e }
  | Except.error e => Except.error e

/-- `User.create(email, raw_password, group_id)`: constructs the user
(which fires the email validation hook on the constructor's email
keyword and leaves hashed_password unset, is_active at its False column
default) and then assigns `user.password = raw_password` through the
setter. -/
def User.create (salt : Nat) (email raw_password : String) (group_id : Nat) :
    Except ModelError User × List PwEvent :=
  match User.validate_email_hook email with
  | Except.error e => (Except.error e, [])
  | Except.ok em =>
    User.set_password salt
      { email := em, hashed_password := none, is_active := false, group_id := group_id }
      raw_password

/-- `User.verify_password(raw_password)`: delegates to the hasher's
verify on the stored digest. A user whose password was never set has no
digest; verification is vacuously false there. -/
def User.verify_password (u : User) (raw_password : String) : Bool :=
  match u.hashed_password with
  | some d => CinemaAccounts.verify_password raw_password d
  | none => false

/-- The `validate_password` field validator of BaseEmailPasswordSchema
(src/schemas/accounts.py): runs the strength validator on the raw value
and stores what it returns; no hashing happens on the schema path. The
trace records the events. -/
def BaseEmailPasswordSchema.validate_password (value : String) :
    Except ModelError String × List PwEvent :=
  runValidatePassword value

/-- The email field of BaseEmailPasswordSchema: pydantic's `EmailStr`
syntax validation on the incoming value, then the `validate_email` field
validator lowercases it; the lowercased value is what the schema holds. -/
def BaseEmailPasswordSchema.email_field (value : String) : Except ModelError String :=
  if emailSyntaxOk value then Except.ok (pyLower value) else Except.error ModelError.validationError

/-- A row of one of the three token tables (the shared abstract shape of
TokenBase): the opaque token string, the absolute expiry instant, and the
foreign-key reference to its user. -/
structure TokenRow where
  token : String
  expires_at : Int
  user_id : Nat
deriving DecidableEq, Repr

/-- A row of the `users` table as the store sees it: primary key and the
unique email column. -/
structure UserRow where
  id : Nat
  email : String
deriving DecidableEq, Repr

/-- A row of the `user_profiles` table: primary key and the reference to
the owning user. -/
structure ProfileRow where
  id : Nat
  user_id : Nat
deriving DecidableEq, Repr

/-- The relational store: one list of rows per table of the account
schema that the claims touch. -/
structure Store where
  users : List UserRow
  user_profiles : List ProfileRow
  activation_tokens : List TokenRow
  password_reset_tokens : List TokenRow
  refresh_tokens : List TokenRow
deriving Repr

/-- The empty store. -/
def Store.empty : Store :=
  { users := [], user_profiles := [], activation_tokens := [],
    password_reset_tokens := [], refresh_tokens := [] }

/-- Inserting a user row enforces the primary-key and unique-email
constraints of the `users` table. -/
def Store.insertUser (s : Store) (r : UserRow) : Except ModelError Store :=
  if s.users.any (fun u => u.id == r.id) then Except.error ModelError.integrityError
  else if s.users.any (fun u => u.email == r.email) then Except.error ModelError.integrityError
  else Except.ok { s with users := r :: s.users }

/-- Inserting a profile row enforces the foreign key to `users`. -/
def Store.insertProfile (s : Store) (r : ProfileRow) : Except ModelError Store :=
  if s.users.any (fun u => u.id == r.user_id) then
    Except.ok { s with user_profiles := r :: s.user_profiles }
  else Except.error ModelError.integrityError

/-- Inserting an activation token enforces the unique token string, the
`UniqueConstraint("user_id")` of `activation_tokens`, and the foreign key
to `users`. -/
def Store.insertActivationToken (s : Store) (r : TokenRow) : Except ModelError Store :=
  if s.activation_tokens.any (fun t => t.token == r.token) then
    Except.error ModelError.integrityError
  else if s.activation_tokens.any (fun t => t.user_id == r.user_id) then
    Except.error ModelError.integrityError
  else if s.users.any (fun u => u.id == r.user_id) then
    Except.ok { s with activation_tokens := r :: s.activation_tokens }
  else Except.error ModelError.integrityError

/-- Inserting a password-reset token enforces the unique token string,
the `UniqueConstraint("user_id")` of `password_reset_tokens`, and the
foreign key to `users`. -/
def Store.insertPasswordResetToken (s : Store) (r : TokenRow) : Except ModelError Store :=
  if s.password_reset_tokens.any (fun t => t.token == r.token) then
    Except.error ModelError.integrityError
  else if s.password_reset_tokens.any (fun t => t.user_id == r.user_id) then
    Except.error ModelError.integrityError
  else if s.users.any (fun u => u.id == r.user_id) then
    Except.ok { s with password_reset_tokens := r :: s.password_reset_tokens }
  else Except.error ModelError.integrityError

/-- Inserting a refresh token enforces the unique token string and the
foreign key to `users`; the `refresh_tokens` table carries no uniqueness
constraint on `user_id`. -/
def Store.insertRefreshToken (s : Store) (r : TokenRow) : Except ModelError Store :=
  if s.refresh_tokens.any (fun t => t.token == r.token) then
    Except.error ModelError.integrityError
  else if s.users.any (fun u => u.id == r.user_id) then
    Except.ok { s with refresh_tokens := r :: s.refresh_tokens }
  else Except.error ModelError.integrityError

/-- Deleting an activation token by its string. -/
def Store.deleteActivationToken (s : Store) (tok : String) : Store :=
  { s with activation_tokens := s.activation_tokens.filter (fun t => !(t.token == tok)) }

/-- Deleting a password-reset token by its string. -/
def Store.deletePasswordResetToken (s : Store) (tok : String) : Store :=
  { s with password_reset_tokens := s.password_reset_tokens.filter (fun t => !(t.token == tok)) }

/-- Deleting a refresh token by its string. -/
def Store.deleteRefreshToken (s : Store) (tok : String) : Store :=
  { s with refresh_tokens := s.refresh_tokens.filter (fun t => !(t.token == tok)) }

/-- Deleting a user performs, in one atomic unit, the cascades the schema
declares: the `cascade="all, delete-orphan"` relationships on profile and
the three token kinds, matching the `ondelete="CASCADE"` foreign keys, so
every dependent row referencing the user goes with the user row. -/
def Store.deleteUser (s : Store) (uid : Nat) : Store :=
  { users := s.users.filter (fun u => !(u.id == uid)),
    user_profiles := s.user_profiles.filter (fun p => !(p.user_id == uid)),
    activation_tokens := s.activation_tokens.filter (fun t => !(t.user_id == uid)),
    password_reset_tokens := s.password_reset_tokens.filter (fun t => !(t.user_id == uid)),
    refresh_tokens := s.refresh_tokens.filter (fun t => !(t.user_id == uid)) }

/-- The store states reachable from the empty store through the schema's
insert and delete operations, with every insert subject to the declared
constraints. -/
inductive Reachable : Store → Prop where
  | empty : Reachable Store.empty
  | insertUser {s s1 : Store} {r : UserRow} :
      Reachable s → Store.insertUser s r = Except.ok s1 → Reachable s1
  | insertProfile {s s1 : Store} {r : ProfileRow} :
      Reachable s → Store.insertProfile s r = Except.ok s1 → Reachable s1
  | insertActivationToken {s s1 : Store} {r : TokenRow} :
      Reachable s → Store.insertActivationToken s r = Except.ok s1 → Reachable s1
  | insertPasswordResetToken {s s1 : Store} {r : TokenRow} :
      Reachable s → Store.insertPasswordResetToken s r = Except.ok s1 → Reachable s1
  | insertRefreshToken {s s1 : Store} {r : TokenRow} :
      Reachable s → Store.insertRefreshToken s r = Except.ok s1 → Reachable s1
  | deleteActivationToken {s : Store} {tok : String} :
      Reachable s → Reachable (Store.deleteActivationToken s tok)
  | deletePasswordResetToken {s : Store} {tok : String} :
      Reachable s → Reachable (Store.deletePasswordResetToken s tok)
  | deleteRefreshToken {s : Store} {tok : String} :
      Reachable s → Reachable (Store.deleteRefreshToken s tok)
  | deleteUser {s : Store} {uid : Nat} :
      Reachable s → Reachable (Store.deleteUser s uid)

/-- Number of days expressed in the model's time unit (seconds), the
embedding of `timedelta(days=d)`. -/
def timedelta_days (d : Int) : Int := d * 86400

/-- `RefreshToken.create(user_id, days_valid, token)`: computes
`expires_at = datetime.now(timezone.utc) + timedelta(days=days_valid)`
and builds the row with the given user reference and token string. -/
def RefreshToken.create (now : Int) (user_id : Nat) (days_valid : Int) (token : String) :
    TokenRow :=
  { token := token, expires_at := now + timedelta_days days_valid, user_id := user_id }

/-- Instantiating a TokenBase row: when no explicit `expires_at` is
given, the column default `datetime.now(timezone.utc) + timedelta(days=1)`
applies. -/
def TokenBase.new (now : Int) (user_id : Nat) (token : String) (expiry : Option Int) :
    TokenRow :=
  { token := token,
    expires_at := expiry.getD (now + timedelta_days 1),
    user_id := user_id }

/-- Instantiating an ActivationToken inherits TokenBase's defaults. -/
def mkActivationToken (now : Int) (user_id : Nat) (token : String) (expiry : Option Int) :
    TokenRow :=
  TokenBase.new now user_id token expiry

/-- Instantiating a PasswordResetToken inherits TokenBase's defaults. -/
def mkPasswordResetToken (now : Int) (user_id : Nat) (token : String) (expiry : Option Int) :
    TokenRow :=
  TokenBase.new now user_id token expiry

/-- A family of refresh-token rows for user 1 with pairwise distinct token
strings, used to exhibit stores holding arbitrarily many refresh tokens
for one user. -/
def mkRefreshRow (i : Nat) : TokenRow :=
  { token := String.mk (List.replicate i 'a'), expires_at := 0, user_id := 1 }

/-- A store holding one user and `n` refresh tokens for that user. -/
def storeWithRefresh (n : Nat) : Store :=
  { users := [{ id := 1, email := "a@x.com" }], user_profiles := [],
    activation_tokens := [], password_reset_tokens := [],
    refresh_tokens := (List.range n).reverse.map mkRefreshRow }

/-- A sample user with no password digest yet, used to evaluate the
theorems at concrete inputs. -/
def sampleUserFresh : User :=
  { email := "z@z.org", hashed_password := none, is_active := false, group_id := 1 }

/-- The sample user after the email hook stored a lowercased address. -/
def sampleUserNew : User :=
  { email := "a@x.com", hashed_password := none, is_active := false, group_id := 1 }

/-- The sample user after its password was set to the sample strong
password with salt 0. -/
def sampleUserSet : User :=
  { email := "a@x.com", hashed_password := some { salt := 0, hashed_of := "Passw0rd" },
    is_active := false, group_id := 1 }

/-- A sample profile row owned by user 2. -/
def sampleProfile : ProfileRow :=
  { id := 9, user_id := 2 }

/-- A sample store with two users and two profiles, used to evaluate the
cascade delete at a concrete input. -/
def sampleStore : Store :=
  { users := [{ id := 1, email := "a@x.com" }, { id := 2, email := "b@x.com" }],
    user_profiles := [{ id := 9, user_id := 2 }, { id := 8, user_id := 1 }],
    activation_tokens := [], password_reset_tokens := [], refresh_tokens := [] }

/-! Helper lemmas about ASCII case folding, used to show that lowercasing
preserves the email syntax check. -/

theorem toNat_ofNat_valid (m : Nat) (h : m.isValidChar) : (Char.ofNat m).toNat = m := by
  rw [Char.ofNat, dif_pos h]
  rfl

theorem toNat_injective (c d : Char) (h : c.toNat = d.toNat) : c = d := by
  have := congrArg Char.ofNat h
  simpa using this

theorem toNat_toLower (c : Char) :
    (Char.toLower c).toNat = if 65 ≤ c.toNat ∧ c.toNat ≤ 90 then c.toNat + 32 else c.toNat := by
  unfold Char.toLower
  split
  case isTrue h =>
    rw [if_pos ⟨h.1, h.2⟩]
    exact toNat_ofNat_valid _ (Or.inl (by omega))
  case isFalse h =>
    rw [if_neg h]

theorem toLower_eq_iff_of_lt (c t : Char) (ht : t.toNat < 65) :
    Char.toLower c = t ↔ c = t := by
  constructor
  · intro h
    have h1 := toNat_toLower c
    rw [h] at h1
    by_cases hc : 65 ≤ c.toNat ∧ c.toNat ≤ 90
    · rw [if_pos hc] at h1
      omega
    · rw [if_neg hc] at h1
      exact toNat_injective c t h1.symm
  · intro h
    subst h
    have h1 := toNat_toLower c
    rw [if_neg (by omega)] at h1
    exact toNat_injective _ _ h1

theorem beq_toLower (c t : Char) (ht : t.toNat < 65) :
    (Char.toLower c == t) = (c == t) := by
  rw [Bool.eq_iff_iff]
  simp [toLower_eq_iff_of_lt c t ht]

theorem splitAtSign_map (cs : List Char) :
    splitAtSign (cs.map Char.toLower) =
      (splitAtSign cs).map (fun p => (p.1.map Char.toLower, p.2.map Char.toLower)) := by
  induction cs with
  | nil => rfl
  | cons c cs ih =>
    simp only [List.map_cons, splitAtSign]
    by_cases h : c = '@'
    · subst h
      rw [if_pos (by decide), if_pos rfl]
      rfl
    · have h2 : ¬ Char.toLower c = '@' := by
        rw [toLower_eq_iff_of_lt c _ (by decide)]
        exact h
      rw [if_neg h2, if_neg h, ih]
      cases hs : splitAtSign cs with
      | none => rfl
      | some p => rfl

theorem isEmpty_map_toLower (l : List Char) :
    (l.map Char.toLower).isEmpty = l.isEmpty := by
  cases l with
  | nil => rfl
  | cons c cs => rfl

theorem any_beq_toLower (r : List Char) (t : Char) (ht : t.toNat < 65) :
    (r.map Char.toLower).any (fun c => c == t) = r.any (fun c => c == t) := by
  induction r with
  | nil => rfl
  | cons c cs ih =>
    simp only [List.map_cons, List.any_cons, ih, beq_toLower c t ht]

theorem emailChunksOk_map (l r : List Char) :
    emailChunksOk (l.map Char.toLower, r.map Char.toLower) = emailChunksOk (l, r) := by
  unfold emailChunksOk
  simp only [isEmpty_map_toLower, any_beq_toLower _ _ (by decide : ('.' : Char).toNat < 65),
    any_beq_toLower _ _ (by decide : ('@' : Char).toNat < 65)]

theorem emailSyntaxOk_pyLower (s : String) :
    emailSyntaxOk (pyLower s) = emailSyntaxOk s := by
  unfold emailSyntaxOk pyLower
  rw [show (String.mk (s.data.map Char.toLower)).data = s.data.map Char.toLower from rfl]
  rw [splitAtSign_map]
  cases hs : splitAtSign s.data with
  | none => rfl
  | some p =>
    cases p with
    | mk l r =>
      simp only [Option.map_some]
      exact emailChunksOk_map l r

/-! Helper lemmas about the password setter. -/

theorem set_password_strong_eq (salt : Nat) (u : User) (raw : String)
    (hs : passwordIsStrong raw = true) :
    User.set_password salt u raw =
      (Except.ok { u with hashed_password := some (hash_password salt raw) },
        [PwEvent.validate raw, PwEvent.hash raw]) := by
  unfold User.set_password runValidatePassword validate_password_strength runHashPassword
  rw [if_pos hs]
  rfl

theorem set_password_weak_eq (salt : Nat) (u : User) (raw : String)
    (hs : passwordIsStrong raw = false) :
    User.set_password salt u raw =
      (Except.error ModelError.validationError, [PwEvent.validate raw]) := by
  unfold User.set_password runValidatePassword validate_password_strength runHashPassword
  rw [if_neg (by simp [hs])]

/-- C1: on every password-setting path the strength validator runs on the
raw password first, and the hasher runs, storing its digest, only if the
validator accepted: the setter's event trace starts with the validation
event and contains the hashing event exactly when the password is
accepted; a stored digest always comes from the hasher after acceptance;
`User.create` goes through the same setter; and the schema field
validator of BaseEmailPasswordSchema emits only the validation event, no
hashing at all. -/
theorem password_setter_validates_before_hashing (salt : Nat) (u : User) (raw : String) :
    ((User.set_password salt u raw).2 = [PwEvent.validate raw] ∨
      (User.set_password salt u raw).2 = [PwEvent.validate raw, PwEvent.hash raw]) ∧
    (PwEvent.hash raw ∈ (User.set_password salt u raw).2 ↔ passwordIsStrong raw = true) ∧
    (∀ u1, (User.set_password salt u raw).1 = Except.ok u1 →
      passwordIsStrong raw = true ∧ u1.hashed_password = some (hash_password salt raw)) ∧
    (∀ em gid u1, (User.create salt em raw gid).1 = Except.ok u1 →
      passwordIsStrong raw = true ∧ u1.hashed_password = some (hash_password salt raw)) ∧
    (BaseEmailPasswordSchema.validate_password raw).2 = [PwEvent.validate raw] := by
  by_cases hs : passwordIsStrong raw = true
  · rw [set_password_strong_eq salt u raw hs]
    refine ⟨Or.inr rfl, by simp [hs], ?_, ?_, rfl⟩
    · intro u1 h1
      simp only [Except.ok.injEq] at h1
      subst h1
      exact ⟨hs, rfl⟩
    · intro em gid u1 h1
      unfold User.create at h1
      cases hem : User.validate_email_hook em with
      | error e => rw [hem] at h1; exact absurd h1 (by simp)
      | ok em1 =>
        simp only [hem] at h1
        rw [set_password_strong_eq salt _ raw hs] at h1
        simp only [Except.ok.injEq] at h1
        subst h1
        exact ⟨hs, rfl⟩
  · have hw : passwordIsStrong raw = false := by
      cases h : passwordIsStrong raw
      · rfl
      · exact absurd h hs
    rw [set_password_weak_eq salt u raw hw]
    refine ⟨Or.inl rfl, by simp [hw], ?_, ?_, rfl⟩
    · intro u1 h1
      exact absurd h1 (by simp)
    · intro em gid u1 h1
      unfold User.create at h1
      cases hem : User.validate_email_hook em with
      | error e => rw [hem] at h1; exact absurd h1 (by simp)
      | ok em1 =>
        simp only [hem] at h1
        rw [set_password_weak_eq salt _ raw hw] at h1
        exact absurd h1 (by simp)

/-- C1 witness: concrete evaluation of the setter trace at a strong
password. -/
theorem password_setter_validates_before_hashing_witness :
    PwEvent.hash "Passw0rd" ∈ (User.set_password 0 sampleUserNew "Passw0rd").2 :=
  (password_setter_validates_before_hashing 0 sampleUserNew "Passw0rd").2.1.mpr (by decide)

/-- C2: reading the `password` attribute of any user, in any state,
raises AttributeError; the password is write-only and only
`verify_password` is exposed as a query. -/
theorem password_getter_always_raises (u : User) :
    User.password u = Except.error ModelError.attributeError :=
  rfl

/-- C3: for a strength-accepted raw password p, a user whose password was
set to p through the setter verifies p and fails to verify every other
raw password. -/
theorem verify_password_round_trip (salt : Nat) (u : User) (p : String)
    (hp : passwordIsStrong p = true) (u1 : User)
    (h1 : (User.set_password salt u p).1 = Except.ok u1) :
    u1.verify_password p = true ∧ ∀ q, q ≠ p → u1.verify_password q = false := by
  rw [set_password_strong_eq salt u p hp] at h1
  simp only [Except.ok.injEq] at h1
  subst h1
  constructor
  · simp [User.verify_password, verify_password, hash_password]
  · intro q hq
    simp [User.verify_password, verify_password, hash_password]
    exact fun h => absurd h.symm hq

/-- C3 witness: concrete round trip through the setter and
`verify_password`. -/
theorem verify_password_round_trip_witness :
    sampleUserSet.verify_password "Passw0rd" = true ∧
    sampleUserSet.verify_password "Other1pw" = false := by
  have h := verify_password_round_trip 0 sampleUserNew "Passw0rd" (by decide)
    sampleUserSet (by rfl)
  exact ⟨h.1, h.2 "Other1pw" (by decide)⟩

/-- C9: when the strength validator rejects the raw password, the setter
raises ValidationError and the only event on its trace is the validation
event: the hasher never ran and no updated user state is produced, so the
caller's user is exactly what it was before the call. -/
theorem weak_password_set_raises_without_mutation (salt : Nat) (u : User) (raw : String)
    (hw : passwordIsStrong raw = false) :
    (User.set_password salt u raw).1 = Except.error ModelError.validationError ∧
    (User.set_password salt u raw).2 = [PwEvent.validate raw] := by
  rw [set_password_weak_eq salt u raw hw]
  exact ⟨rfl, rfl⟩

/-- C9 witness: concrete evaluation at a password that is too short. -/
theorem weak_password_set_raises_without_mutation_witness :
    (User.set_password 0 sampleUserNew "pw1").1 = Except.error ModelError.validationError :=
  (weak_password_set_raises_without_mutation 0 sampleUserNew "pw1" (by decide)).1

/-- C4: every successful email assignment (the User `@validates` hook and
the schema email field) stores the lowercased form of the input, and the
syntax check has passed at the moment of assignment, before any
persistence. -/
theorem email_assigned_lowercased_and_checked :
    (∀ u value u1, User.set_email u value = Except.ok u1 →
      u1.email = pyLower value ∧ emailSyntaxOk u1.email = true) ∧
    (∀ salt em raw gid u1, (User.create salt em raw gid).1 = Except.ok u1 →
      u1.email = pyLower em ∧ emailSyntaxOk u1.email = true) ∧
    (∀ value out, BaseEmailPasswordSchema.email_field value = Except.ok out →
      out = pyLower value ∧ emailSyntaxOk value = true ∧ emailSyntaxOk out = true) := by
  have hhook : ∀ value out, User.validate_email_hook value = Except.ok out →
      out = pyLower value ∧ emailSyntaxOk (pyLower value) = true := by
    intro value out h
    unfold User.validate_email_hook validate_email at h
    by_cases hc : emailSyntaxOk (pyLower value) = true
    · rw [if_pos hc] at h
      simp only [Except.ok.injEq] at h
      exact ⟨h.symm, hc⟩
    · rw [if_neg hc] at h
      exact absurd h (by simp)
  refine ⟨?_, ?_, ?_⟩
  · intro u value u1 h
    unfold User.set_email at h
    cases hv : User.validate_email_hook value with
    | error e => rw [hv] at h; exact absurd h (by simp)
    | ok e =>
      rw [hv] at h
      simp only [Except.ok.injEq] at h
      subst h
      obtain ⟨he, hok⟩ := hhook value e hv
      subst he
      exact ⟨rfl, hok⟩
  · intro salt em raw gid u1 h
    unfold User.create at h
    cases hv : User.validate_email_hook em with
    | error e => rw [hv] at h; exact absurd h (by simp)
    | ok e =>
      simp only [hv] at h
      obtain ⟨he, hok⟩ := hhook em e hv
      subst he
      by_cases hs : passwordIsStrong raw = true
      · rw [set_password_strong_eq salt _ raw hs] at h
        simp only [Except.ok.injEq] at h
        subst h
        exact ⟨rfl, hok⟩
      · have hw : passwordIsStrong raw = false := by
          cases hb : passwordIsStrong raw
          · rfl
          · exact absurd hb hs
        rw [set_password_weak_eq salt _ raw hw] at h
        exact absurd h (by simp)
  · intro value out h
    unfold BaseEmailPasswordSchema.email_field at h
    by_cases hc : emailSyntaxOk value = true
    · rw [if_pos hc] at h
      simp only [Except.ok.injEq] at h
      subst h
      exact ⟨rfl, hc, by rw [emailSyntaxOk_pyLower]; exact hc⟩
    · rw [if_neg hc] at h
      exact absurd h (by simp)

/-- C4 witness: concrete assignment of a mixed-case email address. -/
theorem email_assigned_lowercased_and_checked_witness :
    sampleUserNew.email = pyLower "A@X.com" ∧ emailSyntaxOk sampleUserNew.email = true :=
  email_assigned_lowercased_and_checked.1 sampleUserFresh "A@X.com" sampleUserNew (by rfl)

/-- C6: a user built by `User.create` has `is_active = false` (the column
default), and no other model operation on User (password setter, email
assignment) changes `is_active`; only an explicit activation step could
flip it. -/
theorem created_users_start_inactive :
    (∀ salt em raw gid u1, (User.create salt em raw gid).1 = Except.ok u1 →
      u1.is_active = false) ∧
    (∀ salt u raw u1, (User.set_password salt u raw).1 = Except.ok u1 →
      u1.is_active = u.is_active) ∧
    (∀ u value u1, User.set_email u value = Except.ok u1 → u1.is_active = u.is_active) := by
  have hset : ∀ salt (u : User) raw u1, (User.set_password salt u raw).1 = Except.ok u1 →
      u1.is_active = u.is_active := by
    intro salt u raw u1 h
    by_cases hs : passwordIsStrong raw = true
    · rw [set_password_strong_eq salt u raw hs] at h
      simp only [Except.ok.injEq] at h
      subst h
      rfl
    · have hw : passwordIsStrong raw = false := by
        cases hb : passwordIsStrong raw
        · rfl
        · exact absurd hb hs
      rw [set_password_weak_eq salt u raw hw] at h
      exact absurd h (by simp)
  refine ⟨?_, hset, ?_⟩
  · intro salt em raw gid u1 h
    unfold User.create at h
    cases hv : User.validate_email_hook em with
    | error e => rw [hv] at h; exact absurd h (by simp)
    | ok e =>
      simp only [hv] at h
      exact hset salt _ raw u1 h
  · intro u value u1 h
    unfold User.set_email at h
    cases hv : User.validate_email_hook value with
    | error e => rw [hv] at h; exact absurd h (by simp)
    | ok e =>
      rw [hv] at h
      simp only [Except.ok.injEq] at h
      subst h
      rfl

/-- C6 witness: concrete creation of a user. -/
theorem created_users_start_inactive_witness :
    sampleUserSet.is_active = false :=
  created_users_start_inactive.1 0 "A@x.com" "Passw0rd" 1 sampleUserSet (by rfl)

/-- C7: `RefreshToken.create(user_id, days_valid, token)` yields the row
whose expiry is the current instant plus exactly `days_valid` days, owned
by the given user and carrying the given token string. -/
theorem refresh_token_create_fields (now : Int) (uid : Nat) (d : Int) (tok : String) :
    (RefreshToken.create now uid d tok).expires_at = now + d * 86400 ∧
    (RefreshToken.create now uid d tok).user_id = uid ∧
    (RefreshToken.create now uid d tok).token = tok :=
  ⟨rfl, rfl, rfl⟩

/-- C10: an activation or password-reset token instantiated without an
explicit expiry receives the TokenBase column default of the creation
instant plus exactly one day. -/
theorem token_default_expiry_one_day (now : Int) (uid : Nat) (tok : String) :
    (mkActivationToken now uid tok none).expires_at = now + 86400 ∧
    (mkPasswordResetToken now uid tok none).expires_at = now + 86400 := by
  constructor <;>
    simp [mkActivationToken, mkPasswordResetToken, TokenBase.new, timedelta_days]

/-- C8: deleting a user cascades in the same atomic step to its profile
and to every activation, password-reset and refresh token referencing it:
afterwards no row of any of those tables references the user, and the
user row itself is gone. -/
theorem delete_user_cascades (s : Store) (uid : Nat) :
    (∀ p, p ∈ (Store.deleteUser s uid).user_profiles → p.user_id ≠ uid) ∧
    (∀ t, t ∈ (Store.deleteUser s uid).activation_tokens → t.user_id ≠ uid) ∧
    (∀ t, t ∈ (Store.deleteUser s uid).password_reset_tokens → t.user_id ≠ uid) ∧
    (∀ t, t ∈ (Store.deleteUser s uid).refresh_tokens → t.user_id ≠ uid) ∧
    (∀ u, u ∈ (Store.deleteUser s uid).users → u.id ≠ uid) := by
  refine ⟨?_, ?_, ?_, ?_, ?_⟩ <;>
    · intro x hx
      simp only [Store.deleteUser, List.mem_filter] at hx
      simpa using hx.2

/-- C8 witness: deleting user 1 from a concrete store leaves only the
profile of user 2. -/
theorem delete_user_cascades_witness :
    sampleProfile.user_id ≠ 1 :=
  (delete_user_cascades sampleStore 1).1 sampleProfile (by decide)

/-! Helper lemmas for the store reachability invariant. -/

theorem insertUser_tokens_eq {s s1 : Store} {r : UserRow}
    (h : Store.insertUser s r = Except.ok s1) :
    s1.activation_tokens = s.activation_tokens ∧
    s1.password_reset_tokens = s.password_reset_tokens := by
  unfold Store.insertUser at h
  by_cases h1 : s.users.any (fun u => u.id == r.id) = true
  · rw [if_pos h1] at h
    exact Except.noConfusion h
  · rw [if_neg h1] at h
    by_cases h2 : s.users.any (fun u => u.email == r.email) = true
    · rw [if_pos h2] at h
      exact Except.noConfusion h
    · rw [if_neg h2] at h
      injection h with h
      subst h
      exact ⟨rfl, rfl⟩

theorem insertProfile_tokens_eq {s s1 : Store} {r : ProfileRow}
    (h : Store.insertProfile s r = Except.ok s1) :
    s1.activation_tokens = s.activation_tokens ∧
    s1.password_reset_tokens = s.password_reset_tokens := by
  unfold Store.insertProfile at h
  by_cases h1 : s.users.any (fun u => u.id == r.user_id) = true
  · rw [if_pos h1] at h
    injection h with h
    subst h
    exact ⟨rfl, rfl⟩
  · rw [if_neg h1] at h
    exact Except.noConfusion h

theorem insertActivationToken_ok {s s1 : Store} {r : TokenRow}
    (h : Store.insertActivationToken s r = Except.ok s1) :
    s1.activation_tokens = r :: s.activation_tokens ∧
    s.activation_tokens.any (fun t => t.user_id == r.user_id) = false ∧
    s1.password_reset_tokens = s.password_reset_tokens := by
  unfold Store.insertActivationToken at h
  by_cases h1 : s.activation_tokens.any (fun t => t.token == r.token) = true
  · rw [if_pos h1] at h
    exact Except.noConfusion h
  · rw [if_neg h1] at h
    by_cases h2 : s.activation_tokens.any (fun t => t.user_id == r.user_id) = true
    · rw [if_pos h2] at h
      exact Except.noConfusion h
    · rw [if_neg h2] at h
      by_cases h3 : s.users.any (fun u => u.id == r.user_id) = true
      · rw [if_pos h3] at h
        injection h with h
        subst h
        exact ⟨rfl, Bool.not_eq_true _ ▸ h2, rfl⟩
      · rw [if_neg h3] at h
        exact Except.noConfusion h

theorem insertPasswordResetToken_ok {s s1 : Store} {r : TokenRow}
    (h : Store.insertPasswordResetToken s r = Except.ok s1) :
    s1.password_reset_tokens = r :: s.password_reset_tokens ∧
    s.password_reset_tokens.any (fun t => t.user_id == r.user_id) = false ∧
    s1.activation_tokens = s.activation_tokens := by
  unfold Store.insertPasswordResetToken at h
  by_cases h1 : s.password_reset_tokens.any (fun t => t.token == r.token) = true
  · rw [if_pos h1] at h
    exact Except.noConfusion h
  · rw [if_neg h1] at h
    by_cases h2 : s.password_reset_tokens.any (fun t => t.user_id == r.user_id) = true
    · rw [if_pos h2] at h
      exact Except.noConfusion h
    · rw [if_neg h2] at h
      by_cases h3 : s.users.any (fun u => u.id == r.user_id) = true
      · rw [if_pos h3] at h
        injection h with h
        subst h
        exact ⟨rfl, Bool.not_eq_true _ ▸ h2, rfl⟩
      · rw [if_neg h3] at h
        exact Except.noConfusion h

theorem insertRefreshToken_tokens_eq {s s1 : Store} {r : TokenRow}
    (h : Store.insertRefreshToken s r = Except.ok s1) :
    s1.activation_tokens = s.activation_tokens ∧
    s1.password_reset_tokens = s.password_reset_tokens := by
  unfold Store.insertRefreshToken at h
  by_cases h1 : s.refresh_tokens.any (fun t => t.token == r.token) = true
  · rw [if_pos h1] at h
    exact Except.noConfusion h
  · rw [if_neg h1] at h
    by_cases h2 : s.users.any (fun u => u.id == r.user_id) = true
    · rw [if_pos h2] at h
      injection h with h
      subst h
      exact ⟨rfl, rfl⟩
    · rw [if_neg h2] at h
      exact Except.noConfusion h

theorem countP_user_cons_le {l : List TokenRow} {r : TokenRow} {uid : Nat}
    (hg : l.any (fun t => t.user_id == r.user_id) = false)
    (ih : l.countP (fun t => t.user_id == uid) ≤ 1) :
    (r :: l).countP (fun t => t.user_id == uid) ≤ 1 := by
  rw [List.countP_cons]
  by_cases hu : r.user_id = uid
  · have hz : l.countP (fun t => t.user_id == uid) = 0 := by
      rw [List.countP_eq_zero]
      intro a ha
      have := List.any_eq_false.mp hg a ha
      simpa [hu] using this
    simp [hz, hu]
  · have hf : (r.user_id == uid) = false := by
      simp [hu]
    simp only [hf]
    simpa using ih

theorem reachable_at_most_one {s : Store} (hs : Reachable s) (uid : Nat) :
    s.activation_tokens.countP (fun t => t.user_id == uid) ≤ 1 ∧
    s.password_reset_tokens.countP (fun t => t.user_id == uid) ≤ 1 := by
  induction hs with
  | empty => exact ⟨Nat.le_succ 0, Nat.le_succ 0⟩
  | insertUser hr hok ih =>
    obtain ⟨ha, hp⟩ := insertUser_tokens_eq hok
    exact ⟨ha ▸ ih.1, hp ▸ ih.2⟩
  | insertProfile hr hok ih =>
    obtain ⟨ha, hp⟩ := insertProfile_tokens_eq hok
    exact ⟨ha ▸ ih.1, hp ▸ ih.2⟩
  | insertActivationToken hr hok ih =>
    obtain ⟨ha, hg, hp⟩ := insertActivationToken_ok hok
    exact ⟨ha ▸ countP_user_cons_le hg ih.1, hp ▸ ih.2⟩
  | insertPasswordResetToken hr hok ih =>
    obtain ⟨hp, hg, ha⟩ := insertPasswordResetToken_ok hok
    exact ⟨ha ▸ ih.1, hp ▸ countP_user_cons_le hg ih.2⟩
  | insertRefreshToken hr hok ih =>
    obtain ⟨ha, hp⟩ := insertRefreshToken_tokens_eq hok
    exact ⟨ha ▸ ih.1, hp ▸ ih.2⟩
  | deleteActivationToken hr ih =>
    exact ⟨Nat.le_trans (List.Sublist.countP_le _ (List.filter_sublist _)) ih.1, ih.2⟩
  | deletePasswordResetToken hr ih =>
    exact ⟨ih.1, Nat.le_trans (List.Sublist.countP_le _ (List.filter_sublist _)) ih.2⟩
  | deleteRefreshToken hr ih =>
    exact ih
  | deleteUser hr ih =>
    exact ⟨Nat.le_trans (List.Sublist.countP_le _ (List.filter_sublist _)) ih.1,
      Nat.le_trans (List.Sublist.countP_le _ (List.filter_sublist _)) ih.2⟩

/-! Helper lemmas constructing reachable stores with many refresh tokens
for one user. -/

theorem storeWithRefresh_zero :
    Store.insertUser Store.empty { id := 1, email := "a@x.com" } =
      Except.ok (storeWithRefresh 0) :=
  rfl

theorem storeWithRefresh_succ (n : Nat) :
    Store.insertRefreshToken (storeWithRefresh n) (mkRefreshRow n) =
      Except.ok (storeWithRefresh (n + 1)) := by
  unfold Store.insertRefreshToken
  have hguard : (storeWithRefresh n).refresh_tokens.any
      (fun t => t.token == (mkRefreshRow n).token) = false := by
    rw [List.any_eq_false]
    intro x hx
    unfold storeWithRefresh at hx
    rw [List.mem_map] at hx
    obtain ⟨j, hj, rfl⟩ := hx
    rw [List.mem_reverse, List.mem_range] at hj
    simp only [mkRefreshRow, beq_iff_eq]
    intro hcontr
    have hlen := congrArg (fun st : String => st.data.length) hcontr
    simp only [List.length_replicate] at hlen
    omega
  rw [if_neg (by simp [hguard]), if_pos (by rfl)]
  unfold storeWithRefresh
  rw [List.range_succ, List.reverse_append]
  rfl

theorem storeWithRefresh_reachable (n : Nat) : Reachable (storeWithRefresh n) := by
  induction n with
  | zero => exact Reachable.insertUser Reachable.empty storeWithRefresh_zero
  | succ n ih => exact Reachable.insertRefreshToken ih (storeWithRefresh_succ n)

theorem storeWithRefresh_count (n : Nat) :
    (storeWithRefresh n).refresh_tokens.countP (fun t => t.user_id == 1) = n := by
  have hall : ∀ t ∈ (storeWithRefresh n).refresh_tokens,
      (fun t : TokenRow => t.user_id == 1) t = true := by
    intro t ht
    unfold storeWithRefresh at ht
    rw [List.mem_map] at ht
    obtain ⟨j, hj, rfl⟩ := ht
    rfl
  rw [List.countP_eq_length.mpr hall]
  unfold storeWithRefresh
  simp

/-- C5: in every reachable store state each user owns at most one
activation token and at most one password-reset token (enforced by the
`UniqueConstraint("user_id")` on those two tables), while the refresh
table carries no such constraint: for every n some reachable state holds
n refresh tokens of one user. -/
theorem token_per_user_constraints :
    (∀ s, Reachable s → ∀ uid,
      s.activation_tokens.countP (fun t => t.user_id == uid) ≤ 1 ∧
      s.password_reset_tokens.countP (fun t => t.user_id == uid) ≤ 1) ∧
    (∀ n, ∃ s, Reachable s ∧
      s.refresh_tokens.countP (fun t => t.user_id == 1) = n) :=
  ⟨fun _s hs uid => reachable_at_most_one hs uid,
    fun n => ⟨storeWithRefresh n, storeWithRefresh_reachable n, storeWithRefresh_count n⟩⟩

/-- C5 witness: the invariant evaluated at a concrete reachable store,
and a concrete reachable store holding two refresh tokens of user 1. -/
theorem token_per_user_constraints_witness :
    ((storeWithRefresh 2).activation_tokens.countP (fun t => t.user_id == 1) ≤ 1 ∧
      (storeWithRefresh 2).password_reset_tokens.countP (fun t => t.user_id == 1) ≤ 1) ∧
    (∃ s, Reachable s ∧ s.refresh_tokens.countP (fun t => t.user_id == 1) = 2) :=
  ⟨token_per_user_constraints.1 (storeWithRefresh 2) (storeWithRefresh_reachable 2) 1,
    token_per_user_constraints.2 2⟩

end CinemaAccounts
